import Mathlib

/-!
Verification of the persistence core of a distributed document storage
engine: the persistence-provider bucket model (put/remove/get/iterate/
split and the order-independent bucket-info checksum), the document
meta-store lid allocator, and the provider error wrapper.

The provider error wrapper is embedded directly from
`storage/persistence/provider_error_wrapper.cpp`.  The persistence
provider and the lid allocator are exercised by the conformance test
suite and the lid-allocator test in the repository; their implementations
live outside the included sources, so their state machines are modelled
from the specification text, faithful to the behaviour the tests demand.
-/

namespace Vespa

/-- Modelled from the spec: identity of a document.  A document id
deterministically yields a hashed location (which drives bucket
placement); `uniq` separates distinct documents sharing a location. -/
structure DocId where
  location : Nat
  uniq : Nat
deriving DecidableEq

/-- Modelled from the spec: a document value, reduced to its id, an
abstract content value and its serialized size in bytes. -/
structure Doc where
  id : DocId
  content : Nat
  size : Nat
deriving DecidableEq

/-- Modelled from the spec: the operation recorded by a `DocEntry` —
either a put carrying a document body (content and content size) or a
remove tombstone. -/
inductive EntryOp where
  | put (content : Nat) (size : Nat)
  | remove
deriving DecidableEq

/-- Modelled from the spec: a `DocEntry`, one versioned fact about a
document at a timestamp. -/
structure Entry where
  docId : DocId
  timestamp : Nat
  op : EntryOp
deriving DecidableEq

/-- Entry recorded by `put(b, t, d)`. -/
def putEntry (d : Doc) (t : Nat) : Entry :=
  ⟨d.id, t, EntryOp.put d.content d.size⟩

/-- Serialized size of an entry as accounted by iteration chunking: the
document size for a put, a fixed id size for a tombstone. -/
def entrySize (e : Entry) : Nat :=
  match e.op with
  | EntryOp.put _ sz => sz
  | EntryOp.remove => 8

/-- Modelled from the spec: inserting an entry into a bucket's content
replaces any existing entry with the same (document id, timestamp) key —
duplicate puts at an identical timestamp are idempotent. -/
def insertEntry (es : List Entry) (e : Entry) : List Entry :=
  e :: es.filter (fun x => decide (¬(x.docId = e.docId ∧ x.timestamp = e.timestamp)))

/-- Well-formedness of a bucket's content: no two entries share the
(document id, timestamp) key.  This is the invariant `insertEntry`
maintains from the empty bucket. -/
def keysDistinct (es : List Entry) : Prop :=
  es.Pairwise (fun a b => ¬(a.docId = b.docId ∧ a.timestamp = b.timestamp))

/-- All entries a bucket holds for one document id. -/
def entriesFor (es : List Entry) (i : DocId) : List Entry :=
  es.filter (fun e => decide (e.docId = i))

/-- Newest timestamp among the entries for a document id (0 when none). -/
def maxTs (es : List Entry) (i : DocId) : Nat :=
  ((entriesFor es i).map Entry.timestamp).foldr max 0

/-- Modelled from the spec: the newest-timestamp entry for a document id —
the version `get` reports and the only version bucket-info reflects. -/
def visibleEntry (es : List Entry) (i : DocId) : Option Entry :=
  (es.filter (fun e => decide (e.docId = i ∧ e.timestamp = maxTs es i))).head?

/-- Set of document ids with at least one entry in the bucket. -/
def docIds (es : List Entry) : Finset DocId :=
  (es.map Entry.docId).toFinset

/-- Modelled from the spec: per-document checksum over the visible
(document-id, newest-timestamp, content) triple; nonzero by construction. -/
def perDocChecksum (i : DocId) (t c : Nat) : Nat :=
  1 + i.location * 3 + i.uniq * 5 + t * 7 + c * 11

/-- Checksum contribution of one entry: tombstones contribute nothing. -/
def entryChecksum (e : Entry) : Nat :=
  match e.op with
  | EntryOp.put c _ => perDocChecksum e.docId e.timestamp c
  | EntryOp.remove => 0

/-- Document-size contribution of one entry. -/
def entryDocSize (e : Entry) : Nat :=
  match e.op with
  | EntryOp.put _ sz => sz
  | EntryOp.remove => 0

/-- Checksum contribution of the visible version of a document id. -/
def visChecksum (es : List Entry) (i : DocId) : Nat :=
  match visibleEntry es i with
  | some e => entryChecksum e
  | none => 0

/-- Size contribution of the visible version of a document id. -/
def visSize (es : List Entry) (i : DocId) : Nat :=
  match visibleEntry es i with
  | some e => entryDocSize e
  | none => 0

/-- Whether the visible version of a document id is a live put. -/
def visIsPut (es : List Entry) (i : DocId) : Bool :=
  match visibleEntry es i with
  | some e => match e.op with
    | EntryOp.put _ _ => true
    | EntryOp.remove => false
  | none => false

/-- Modelled from the spec: `BucketInfo`, the summary of a bucket's
content returned by `getBucketInfo`. -/
structure BucketInfo where
  checksum : Nat
  documentCount : Nat
  entryCount : Nat
  documentSize : Nat
deriving DecidableEq

/-- Modelled from the spec: the bucket checksum is an order-independent
(commutative, sum-like) combination of the per-document checksums of the
visible versions, reduced to 32 bits. -/
def bucketChecksum (es : List Entry) : Nat :=
  (∑ i ∈ docIds es, visChecksum es i) % 2 ^ 32

/-- Number of document ids whose visible version is a live put. -/
def documentCount (es : List Entry) : Nat :=
  ((docIds es).filter (fun i => visIsPut es i = true)).card

/-- Total size of the visible live documents. -/
def documentSize (es : List Entry) : Nat :=
  ∑ i ∈ docIds es, visSize es i

/-- Bucket info computed from a bucket's content. -/
def bucketInfo (es : List Entry) : BucketInfo :=
  ⟨bucketChecksum es, documentCount es, es.length, documentSize es⟩

/-- Bucket identity: a bit count plus a bit pattern over hashed document
locations, as in `document::BucketId`. -/
structure BucketId where
  usedBits : Nat
  pattern : Nat
deriving DecidableEq

/-- Provider state for one bucket space: each bucket id is either not
created (`none`) or carries a list of entries. -/
def ProviderState : Type := BucketId → Option (List Entry)

/-- State with no bucket created. -/
def initialState : ProviderState := fun _ => none

/-- Content of a bucket; a bucket that was never created reads as empty
(the missing-equals-empty contract). -/
def contents (s : ProviderState) (b : BucketId) : List Entry :=
  (s b).getD []

/-- Replace one bucket's stored value. -/
def updateBucket (s : ProviderState) (b : BucketId) (v : Option (List Entry)) :
    ProviderState :=
  fun b' => if b' = b then v else s b'

/-- Modelled from the spec: `createBucket` is idempotent and keeps any
existing content. -/
def createBucket (s : ProviderState) (b : BucketId) : ProviderState :=
  updateBucket s b (some (contents s b))

/-- Modelled from the spec: `deleteBucket` returns the bucket to the
nonexistent state. -/
def deleteBucket (s : ProviderState) (b : BucketId) : ProviderState :=
  updateBucket s b none

/-- Modelled from the spec: `put(b, t, d)` inserts or overwrites the entry
for `d`'s id at timestamp `t`; a put to a missing bucket implicitly
creates it. -/
def put (s : ProviderState) (b : BucketId) (t : Nat) (d : Doc) : ProviderState :=
  updateBucket s b (some (insertEntry (contents s b) (putEntry d t)))

/-- Modelled from the spec: `remove(b, t, id)` records a tombstone at `t`. -/
def removeOp (s : ProviderState) (b : BucketId) (t : Nat) (i : DocId) : ProviderState :=
  updateBucket s b (some (insertEntry (contents s b) ⟨i, t, EntryOp.remove⟩))

/-- Result of `get`: timestamp of the visible version (0 when none), the
document when the visible version is a live put, and the tombstone flag. -/
structure GetResult where
  timestamp : Nat
  document : Option Doc
  is_tombstone : Bool
deriving DecidableEq

/-- Whether a `get` returned a document. -/
def GetResult.hasDocument (r : GetResult) : Bool :=
  r.document.isSome

/-- Modelled from the spec: `get(b, AllFields, id)` returns the visible
version's timestamp and document; for an unknown id it returns timestamp
0, no document, not a tombstone. -/
def get (s : ProviderState) (b : BucketId) (i : DocId) : GetResult :=
  match visibleEntry (contents s b) i with
  | some ⟨j, t, EntryOp.put c sz⟩ => ⟨t, some ⟨j, c, sz⟩, false⟩
  | some ⟨_, t, EntryOp.remove⟩ => ⟨t, none, true⟩
  | none => ⟨0, none, false⟩

/-- Modelled from the spec: `getBucketInfo` never errors; a missing bucket
yields a clean empty summary. -/
def getBucketInfo (s : ProviderState) (b : BucketId) : BucketInfo :=
  bucketInfo (contents s b)

/-- Modelled from the spec: the snapshot of entries an iterator created on
a bucket walks (all-versions selection over the whole bucket). -/
def createIteratorSnapshot (s : ProviderState) (b : BucketId) : List Entry :=
  contents s b

/-- Modelled from the spec: greedy chunk assembly for `iterate` — entries
are never split across chunks, the first entry of a chunk is always
taken, and further entries are taken while the accumulated byte size
stays within `maxB`.  Returns the chunk and the remaining entries. -/
def chunkTake (maxB : Nat) : List Entry → Nat → List Entry × List Entry
  | [], _ => ([], [])
  | e :: rest, acc =>
    if acc = 0 ∨ acc + entrySize e ≤ maxB then
      let p := chunkTake maxB rest (acc + entrySize e)
      (e :: p.1, p.2)
    else ([], e :: rest)

/-- One `iterate(id, maxByteSize)` call on the remaining snapshot: the
returned chunk and the entries still to be iterated.  The call reports
`isCompleted()` exactly when the remaining list is empty. -/
def iterateChunk (maxB : Nat) (es : List Entry) : List Entry × List Entry :=
  chunkTake maxB es 0

/-- Fuel-indexed driver for a full iteration (the fuel only bounds the
recursion; `es.length` steps always suffice). -/
def runIterateFuel (maxB : Nat) : Nat → List Entry → List (List Entry)
  | 0, es => [(iterateChunk maxB es).1]
  | fuel + 1, es =>
    let p := iterateChunk maxB es
    if p.2 = [] then [p.1] else p.1 :: runIterateFuel maxB fuel p.2

/-- Repeatedly calling `iterate` until it reports completion, collecting
each call's chunk — the `doIterate` loop of the conformance suite. -/
def runIterate (maxB : Nat) (es : List Entry) : List (List Entry) :=
  runIterateFuel maxB es.length es

/-- Modelled from the spec: a document location matches a bucket when its
low `usedBits` bits equal the bucket pattern's low `usedBits` bits. -/
def locationMatches (b : BucketId) (loc : Nat) : Bool :=
  decide (loc % 2 ^ b.usedBits = b.pattern % 2 ^ b.usedBits)

/-- Split decision for one entry: does it belong to the first target? -/
def splitTo1 (t1 : BucketId) (e : Entry) : Bool :=
  locationMatches t1 e.docId.location

/-- Modelled from the spec: `split(source, target1, target2)` partitions
all entries of the source by the bit-pattern of each document's location,
additively into the targets, and leaves the source logically empty. -/
def split (s : ProviderState) (src t1 t2 : BucketId) : ProviderState :=
  updateBucket
    (updateBucket
      (updateBucket s t1
        (some (contents s t1 ++ (contents s src).filter (fun e => splitTo1 t1 e))))
      t2 (some (contents s t2 ++ (contents s src).filter (fun e => !splitTo1 t1 e))))
    src (some [])

/-- Concrete bucket content of the chunked-iteration scenario: 100
documents of 110 bytes at timestamps 1000.. (the `feedDocs` helper of the
conformance suite). -/
def chunkDocs : List Entry :=
  (List.range 100).map (fun k => ⟨⟨1, k⟩, 1000 + k, EntryOp.put k 110⟩)

/-- Provider holding the chunked-iteration bucket. -/
def chunkState : ProviderState :=
  updateBucket initialState ⟨8, 1⟩ (some chunkDocs)

/-- Concrete source-bucket content of the split scenario: 10 documents at
location 0x02 (timestamps 1..10) and 10 documents at location 0x06
(timestamps 11..20). -/
def splitSourceDocs : List Entry :=
  ((List.range 10).map (fun k => ⟨⟨2, k⟩, k + 1, EntryOp.put k 110⟩))
    ++ ((List.range 10).map (fun k => ⟨⟨6, k + 10⟩, k + 11, EntryOp.put k 110⟩))

/-- Provider holding the split scenario's source bucket (2, 0x02). -/
def splitState : ProviderState :=
  updateBucket initialState ⟨2, 2⟩ (some splitSourceDocs)

/-- Modelled from the spec: the document meta-store lid allocator state —
valid and active lid sets, the free list, the generation-keyed hold list,
the free-list-constructed flag, and the size of the active-lids bitmap
(lid 0 is reserved, so the initial size is 1). -/
structure LidAllocator where
  validLids : List Nat
  activeLids : List Nat
  freeLids : List Nat
  holdList : List (Nat × List Nat)
  freeListConstructed : Bool
  activeLidsSize : Nat
deriving DecidableEq

/-- Fresh allocator: nothing valid, nothing active, nothing free. -/
def LidAllocator.init : LidAllocator :=
  ⟨[], [], [], [], false, 1⟩

/-- Modelled from the spec: `registerLid` marks a lid valid, removes it
from the free list, and grows the bitmap to cover it. -/
def registerLid (a : LidAllocator) (lid : Nat) : LidAllocator :=
  { a with validLids := a.validLids.insert lid,
           freeLids := a.freeLids.erase lid,
           activeLidsSize := max a.activeLidsSize (lid + 1) }

/-- Modelled from the spec: `updateActiveLids` toggles the active flag
independent of validity. -/
def updateActiveLids (a : LidAllocator) (lid : Nat) (active : Bool) : LidAllocator :=
  if active then { a with activeLids := a.activeLids.insert lid }
  else { a with activeLids := a.activeLids.erase lid }

/-- Modelled from the spec: `unregister_lids` bulk-clears the valid and
active flags of the given lids. -/
def unregister_lids (a : LidAllocator) (lids : List Nat) : LidAllocator :=
  { a with validLids := a.validLids.filter (fun l => decide (l ∉ lids)),
           activeLids := a.activeLids.filter (fun l => decide (l ∉ lids)) }

/-- Modelled from the spec: `holdLids` parks unregistered lids on a
generation-keyed hold list instead of freeing them immediately. -/
def holdLids (a : LidAllocator) (lids : List Nat) (committedDocIdLimit gen : Nat) :
    LidAllocator :=
  let _ := committedDocIdLimit
  { a with holdList := a.holdList ++ [(gen, lids)] }

/-- Modelled from the spec: `trimHoldLists` releases held lids whose
pinning generation has aged out onto the free list. -/
def trimHoldLists (a : LidAllocator) (firstUsed : Nat) : LidAllocator :=
  { a with freeLids :=
             a.freeLids ++ ((a.holdList.filter (fun p => decide (p.1 < firstUsed))).map Prod.snd).flatten,
           holdList := a.holdList.filter (fun p => decide (¬p.1 < firstUsed)) }

/-- Modelled from the spec: `getFreeLid` pops the smallest free lid;
only when the free list is empty does it mint the lid at the committed
doc-id limit, extending the bitmap past it. -/
def getFreeLid (a : LidAllocator) (committedDocIdLimit : Nat) : Nat × LidAllocator :=
  match a.freeLids.min? with
  | some m => (m, { a with freeLids := a.freeLids.erase m })
  | none => (committedDocIdLimit,
             { a with activeLidsSize := max a.activeLidsSize (committedDocIdLimit + 1) })

/-- Modelled from the spec: `constructFreeList(size)` seeds the free list
with every nonzero lid below `size` that is not valid. -/
def constructFreeList (a : LidAllocator) (size : Nat) : LidAllocator :=
  { a with freeLids := (List.range size).filter (fun l => decide (l ≠ 0 ∧ l ∉ a.validLids)) }

/-- Marks the free list as constructed. -/
def setFreeListConstructed (a : LidAllocator) : LidAllocator :=
  { a with freeListConstructed := true }

/-- The test harness's `alloc_lids(count)`: repeated `getFreeLid` calls,
each passing the current active-lids bitmap size as the committed
doc-id limit. -/
def allocLids (a : LidAllocator) : Nat → List Nat × LidAllocator
  | 0 => ([], a)
  | n + 1 =>
    let p := getFreeLid a a.activeLidsSize
    let q := allocLids p.2 n
    (p.1 :: q.1, q.2)

/-- Register a batch of lids one at a time. -/
def registerAll (a : LidAllocator) (lids : List Nat) : LidAllocator :=
  lids.foldl registerLid a

/-- Activate a batch of lids one at a time. -/
def activateAll (a : LidAllocator) (lids : List Nat) : LidAllocator :=
  lids.foldl (fun acc l => updateActiveLids acc l true) a

/-- The allocator state of the lid-allocator test after registering lids
1..6, activating 4..6, constructing the free list, unregistering 1, 3, 5,
holding them at generation 0 and trimming up to generation 1. -/
def lidScenarioState : LidAllocator :=
  let a := registerAll LidAllocator.init [1, 2, 3, 4, 5, 6]
  let a := activateAll a [4, 5, 6]
  let a := setFreeListConstructed (constructFreeList a a.activeLidsSize)
  let a := unregister_lids a [1, 3, 5]
  let a := holdLids a [1, 3, 5] a.activeLidsSize 0
  trimHoldLists a 1

/-- One lid-allocator mutation, for stating invariants over op sequences. -/
inductive LidOp where
  | register (lid : Nat)
  | setActive (lid : Nat) (active : Bool)
  | unregister (lids : List Nat)

/-- Apply one lid operation. -/
def applyLidOp (a : LidAllocator) : LidOp → LidAllocator
  | LidOp.register lid => registerLid a lid
  | LidOp.setActive lid act => updateActiveLids a lid act
  | LidOp.unregister lids => unregister_lids a lids

/-- Apply a sequence of lid operations. -/
def applyLidOps (a : LidAllocator) (ops : List LidOp) : LidAllocator :=
  ops.foldl applyLidOp a

/-- Invariant: every active lid is valid. -/
def activeSubsetValid (a : LidAllocator) : Prop :=
  ∀ l ∈ a.activeLids, l ∈ a.validLids

/-- Guard on an op sequence: a lid is only activated while it is valid
(the usage the document meta-store guarantees). -/
def goodLidOps (a : LidAllocator) : List LidOp → Bool
  | [] => true
  | op :: ops =>
    (match op with
     | LidOp.setActive lid true => decide (lid ∈ a.validLids)
     | _ => true) && goodLidOps (applyLidOp a op) ops

instance activeSubsetValidDecidable (a : LidAllocator) :
    Decidable (activeSubsetValid a) :=
  List.decidableBAll _ a.activeLids

/-- Error taxonomy of `spi::Result`, from `provider_error_wrapper.cpp`. -/
inductive ErrorType where
  | NONE
  | TRANSIENT_ERROR
  | PERMANENT_ERROR
  | RESOURCE_EXHAUSTED
  | FATAL_ERROR
deriving DecidableEq

/-- A provider result: error code, error message, and the operation's
payload (documents, iterator entries, bucket info, ...). -/
structure SpiResult (α : Type) where
  errorCode : ErrorType
  errorMessage : String
  payload : α
deriving DecidableEq

/-- A notification delivered to a registered `ProviderErrorListener`. -/
inductive ListenerEvent where
  | on_fatal_error (reason : String)
  | on_resource_exhaustion_error (reason : String)
deriving DecidableEq

/-- Whether an event is a fatal-error notification. -/
def isFatalEvent : ListenerEvent → Bool
  | ListenerEvent.on_fatal_error _ => true
  | ListenerEvent.on_resource_exhaustion_error _ => false

/-- ProviderErrorWrapper::trigger_shutdown_listeners — every registered
listener, in registration order, receives `on_fatal_error(reason)`. -/
def trigger_shutdown_listeners (listeners : List Nat) (reason : String) :
    List (Nat × ListenerEvent) :=
  listeners.map (fun l => (l, ListenerEvent.on_fatal_error reason))

/-- ProviderErrorWrapper::trigger_resource_exhaustion_listeners — every
registered listener, in registration order, receives
`on_resource_exhaustion_error(reason)`. -/
def trigger_resource_exhaustion_listeners (listeners : List Nat) (reason : String) :
    List (Nat × ListenerEvent) :=
  listeners.map (fun l => (l, ListenerEvent.on_resource_exhaustion_error reason))

/-- ProviderErrorWrapper::handle — dispatches on the result's error code:
fatal errors notify the shutdown listeners, resource exhaustion notifies
the resource-exhaustion listeners, every other code notifies nobody. -/
def handle (listeners : List Nat) (errorCode : ErrorType) (errorMessage : String) :
    List (Nat × ListenerEvent) :=
  if errorCode = ErrorType.FATAL_ERROR then
    trigger_shutdown_listeners listeners errorMessage
  else if errorCode = ErrorType.RESOURCE_EXHAUSTED then
    trigger_resource_exhaustion_listeners listeners errorMessage
  else []

/-- ProviderErrorWrapper::checkResult — handles the result (producing the
listener notifications as a side effect) and forwards it unchanged. -/
def checkResult {α : Type} (listeners : List Nat) (r : SpiResult α) :
    List (Nat × ListenerEvent) × SpiResult α :=
  (handle listeners r.errorCode r.errorMessage, r)

/-- ProviderErrorWrapper::register_error_listener — appends the listener
to the notification list. -/
def register_error_listener (listeners : List Nat) (l : Nat) : List Nat :=
  listeners ++ [l]

/-- A wrapped synchronous provider call (get, iterate, getBucketInfo,
split, join, removeEntry, listBuckets, ...): the wrapper invokes the
inner provider and passes its result through `checkResult`. -/
def wrappedCall {α β : Type} (listeners : List Nat) (impl : α → SpiResult β) (args : α) :
    List (Nat × ListenerEvent) × SpiResult β :=
  checkResult listeners (impl args)

theorem foldr_max_perm {l₁ l₂ : List Nat} (h : List.Perm l₁ l₂) :
    l₁.foldr max 0 = l₂.foldr max 0 := by
  induction h with
  | nil => rfl
  | cons a _ ih => simp [List.foldr_cons, ih]
  | swap a b l => simp only [List.foldr_cons]; omega
  | trans _ _ ih₁ ih₂ => exact ih₁.trans ih₂

theorem perm_eq_of_length_le_one {α : Type} {l₁ l₂ : List α}
    (h : List.Perm l₁ l₂) (hl : l₁.length ≤ 1) : l₁ = l₂ := by
  match l₁, l₂, h.length_eq with
  | [], [], _ => rfl
  | [a], [b], _ =>
    have : a ∈ [b] := h.mem_iff.mp (by simp)
    simp at this
    simp [this]
  | a :: b :: t, _, hlen => simp at hl

theorem keysDistinct_filter (es : List Entry) (p : Entry → Bool)
    (hwf : keysDistinct es) : keysDistinct (es.filter p) :=
  List.Pairwise.sublist (List.filter_sublist es) hwf

theorem keysDistinct_perm {es₁ es₂ : List Entry} (h : List.Perm es₁ es₂)
    (hwf : keysDistinct es₁) : keysDistinct es₂ :=
  (List.Perm.pairwise_iff (fun hab hc => hab ⟨hc.1.symm, hc.2.symm⟩) h).mp hwf

theorem keyFilter_length_le_one (es : List Entry) (i : DocId) (t : Nat)
    (hwf : keysDistinct es) :
    (es.filter (fun e => decide (e.docId = i ∧ e.timestamp = t))).length ≤ 1 := by
  induction es with
  | nil => simp
  | cons e rest ih =>
    have hp : rest.Pairwise (fun a b => ¬(a.docId = b.docId ∧ a.timestamp = b.timestamp)) :=
      (List.pairwise_cons.mp hwf).2
    have he : ∀ x ∈ rest, ¬(e.docId = x.docId ∧ e.timestamp = x.timestamp) :=
      (List.pairwise_cons.mp hwf).1
    by_cases hc : e.docId = i ∧ e.timestamp = t
    · have : rest.filter (fun x => decide (x.docId = i ∧ x.timestamp = t)) = [] := by
        rw [List.filter_eq_nil_iff]
        intro x hx
        simp only [decide_eq_true_eq]
        intro hxc
        exact he x hx ⟨hc.1.trans hxc.1.symm, hc.2.trans hxc.2.symm⟩
      simp only [List.filter_cons, hc, and_self, decide_true_eq_true, if_true, this]
      simp
    · simpa [List.filter_cons, hc] using ih hp

theorem entriesFor_perm {es₁ es₂ : List Entry} (h : List.Perm es₁ es₂) (i : DocId) :
    List.Perm (entriesFor es₁ i) (entriesFor es₂ i) :=
  List.Perm.filter _ h

theorem maxTs_perm {es₁ es₂ : List Entry} (h : List.Perm es₁ es₂) (i : DocId) :
    maxTs es₁ i = maxTs es₂ i :=
  foldr_max_perm (List.Perm.map Entry.timestamp (entriesFor_perm h i))

theorem visibleEntry_perm {es₁ es₂ : List Entry} (h : List.Perm es₁ es₂)
    (hwf : keysDistinct es₁) (i : DocId) :
    visibleEntry es₁ i = visibleEntry es₂ i := by
  unfold visibleEntry
  rw [maxTs_perm h i]
  have hperm : List.Perm
      (es₁.filter (fun e => decide (e.docId = i ∧ e.timestamp = maxTs es₂ i)))
      (es₂.filter (fun e => decide (e.docId = i ∧ e.timestamp = maxTs es₂ i))) :=
    List.Perm.filter _ h
  have hlen : (es₁.filter (fun e => decide (e.docId = i ∧ e.timestamp = maxTs es₂ i))).length ≤ 1 :=
    keyFilter_length_le_one es₁ i (maxTs es₂ i) hwf
  rw [perm_eq_of_length_le_one hperm hlen]

theorem docIds_perm {es₁ es₂ : List Entry} (h : List.Perm es₁ es₂) :
    docIds es₁ = docIds es₂ :=
  List.toFinset_eq_of_perm _ _ (List.Perm.map Entry.docId h)

theorem bucketInfo_perm {es₁ es₂ : List Entry} (h : List.Perm es₁ es₂)
    (hwf : keysDistinct es₁) : bucketInfo es₁ = bucketInfo es₂ := by
  have hvis : ∀ i, visibleEntry es₁ i = visibleEntry es₂ i :=
    fun i => visibleEntry_perm h hwf i
  have hids : docIds es₁ = docIds es₂ := docIds_perm h
  unfold bucketInfo bucketChecksum documentCount documentSize
  rw [hids, h.length_eq]
  congr 1
  · congr 1
    exact Finset.sum_congr rfl (fun i _ => by unfold visChecksum; rw [hvis i])
  · congr 1
    apply Finset.filter_congr
    intro i _
    unfold visIsPut
    rw [hvis i]
  · exact Finset.sum_congr rfl (fun i _ => by unfold visSize; rw [hvis i])

theorem insertEntry_keysDistinct (es : List Entry) (e : Entry)
    (hwf : keysDistinct es) : keysDistinct (insertEntry es e) := by
  unfold insertEntry keysDistinct
  rw [List.pairwise_cons]
  constructor
  · intro x hx
    have := (List.mem_filter.mp hx).2
    simp only [decide_eq_true_eq] at this
    intro hc
    exact this ⟨hc.1.symm, hc.2.symm⟩
  · exact keysDistinct_filter es _ hwf

theorem insertEntry_comm_perm (es : List Entry) (e₁ e₂ : Entry)
    (hkey : ¬(e₁.docId = e₂.docId ∧ e₁.timestamp = e₂.timestamp)) :
    List.Perm (insertEntry (insertEntry es e₁) e₂) (insertEntry (insertEntry es e₂) e₁) := by
  unfold insertEntry
  have hkey' : ¬(e₂.docId = e₁.docId ∧ e₂.timestamp = e₁.timestamp) :=
    fun hc => hkey ⟨hc.1.symm, hc.2.symm⟩
  have hp₂ : decide (¬(e₁.docId = e₂.docId ∧ e₁.timestamp = e₂.timestamp)) = true := by
    simp only [decide_eq_true_eq]; exact hkey
  have hp₁ : decide (¬(e₂.docId = e₁.docId ∧ e₂.timestamp = e₁.timestamp)) = true := by
    simp only [decide_eq_true_eq]; exact hkey'
  rw [List.filter_cons, List.filter_cons, if_pos hp₂, if_pos hp₁, List.filter_comm]
  exact List.Perm.swap e₁ e₂ _


theorem contents_updateBucket_self (s : ProviderState) (b : BucketId)
    (v : Option (List Entry)) : contents (updateBucket s b v) b = v.getD [] := by
  unfold contents updateBucket
  simp

theorem contents_updateBucket_ne (s : ProviderState) (b b' : BucketId)
    (v : Option (List Entry)) (h : b' ≠ b) :
    contents (updateBucket s b v) b' = contents s b' := by
  unfold contents updateBucket
  simp [h]

theorem contents_put (s : ProviderState) (b : BucketId) (t : Nat) (d : Doc) :
    contents (put s b t d) b = insertEntry (contents s b) (putEntry d t) := by
  unfold put
  rw [contents_updateBucket_self]
  rfl

theorem contents_createBucket (s : ProviderState) (b : BucketId) :
    contents (createBucket s b) b = contents s b := by
  unfold createBucket
  rw [contents_updateBucket_self]
  rfl

theorem foldr_max_le (l : List Nat) (t : Nat) (h : ∀ x ∈ l, x ≤ t) :
    l.foldr max 0 ≤ t := by
  induction l with
  | nil => simp
  | cons a rest ih =>
    simp only [List.foldr_cons]
    have ha := h a (by simp)
    have hr := ih (fun x hx => h x (by simp [hx]))
    omega

theorem foldr_max_eq (l : List Nat) (t : Nat) (ht : t ∈ l) (h : ∀ x ∈ l, x ≤ t) :
    l.foldr max 0 = t := by
  induction l with
  | nil => simp at ht
  | cons a rest ih =>
    simp only [List.foldr_cons]
    rcases List.mem_cons.mp ht with rfl | hmem
    · have hle := foldr_max_le rest t (fun x hx => h x (by simp [hx]))
      omega
    · have hr := ih hmem (fun x hx => h x (by simp [hx]))
      have ha := h a (by simp)
      omega

theorem maxTs_eq_of_top (es : List Entry) (e : Entry) (i : DocId) (hmem : e ∈ es)
    (hid : e.docId = i) (hle : ∀ x ∈ es, x.docId = i → x.timestamp ≤ e.timestamp) :
    maxTs es i = e.timestamp := by
  apply foldr_max_eq
  · exact List.mem_map_of_mem _ (List.mem_filter.mpr ⟨hmem, by simp [hid]⟩)
  · intro x hx
    obtain ⟨y, hy, rfl⟩ := List.mem_map.mp hx
    have hmf := List.mem_filter.mp hy
    exact hle y hmf.1 (by simpa using hmf.2)

theorem visibleEntry_eq_of_top (es : List Entry) (e : Entry) (i : DocId) (hmem : e ∈ es)
    (hid : e.docId = i)
    (hlt : ∀ x ∈ es, x.docId = i → x ≠ e → x.timestamp < e.timestamp) :
    visibleEntry es i = some e := by
  have hle : ∀ x ∈ es, x.docId = i → x.timestamp ≤ e.timestamp := by
    intro x hx hxid
    by_cases hxe : x = e
    · subst hxe; exact le_refl _
    · exact le_of_lt (hlt x hx hxid hxe)
  have hmax := maxTs_eq_of_top es e i hmem hid hle
  unfold visibleEntry
  have hall : ∀ x ∈ es.filter (fun x => decide (x.docId = i ∧ x.timestamp = maxTs es i)),
      x = e := by
    intro x hx
    have hmf := List.mem_filter.mp hx
    have hprop : x.docId = i ∧ x.timestamp = maxTs es i := by simpa using hmf.2
    by_contra hne
    have hstrict := hlt x hmf.1 hprop.1 hne
    rw [hmax] at hprop
    omega
  have hmem' : e ∈ es.filter (fun x => decide (x.docId = i ∧ x.timestamp = maxTs es i)) :=
    List.mem_filter.mpr ⟨hmem, by simp [hid, hmax]⟩
  cases hfe : es.filter (fun x => decide (x.docId = i ∧ x.timestamp = maxTs es i)) with
  | nil => rw [hfe] at hmem'; simp at hmem'
  | cons a l =>
    rw [hfe] at hall
    have : a = e := hall a (by simp)
    simp [this]

theorem visibleEntry_cons_ne (es : List Entry) (e : Entry) (i : DocId)
    (h : ¬e.docId = i) : visibleEntry (e :: es) i = visibleEntry es i := by
  have hef : entriesFor (e :: es) i = entriesFor es i := by
    unfold entriesFor
    rw [List.filter_cons, if_neg (by simpa using h)]
  have hmax : maxTs (e :: es) i = maxTs es i := by
    unfold maxTs
    rw [hef]
  unfold visibleEntry
  rw [hmax, List.filter_cons, if_neg (by simp [h])]

theorem insertEntry_no_conflict (es : List Entry) (e : Entry)
    (h : ∀ x ∈ es, ¬(x.docId = e.docId ∧ x.timestamp = e.timestamp)) :
    insertEntry es e = e :: es := by
  unfold insertEntry
  congr 1
  rw [List.filter_eq_self]
  intro x hx
  simp only [decide_eq_true_eq]
  exact h x hx

theorem entriesFor_filter_byDoc (es : List Entry) (q : DocId → Bool) (i : DocId) :
    entriesFor (es.filter (fun e => q e.docId)) i
      = if q i = true then entriesFor es i else [] := by
  unfold entriesFor
  rw [List.filter_comm]
  cases hq : q i with
  | true =>
    rw [if_pos rfl, List.filter_eq_self]
    intro x hx
    have hxi : x.docId = i := by simpa using (List.mem_filter.mp hx).2
    rw [hxi, hq]
  | false =>
    rw [if_neg (by simp), List.filter_eq_nil_iff]
    intro x hx
    have hxi : x.docId = i := by simpa using (List.mem_filter.mp hx).2
    rw [hxi, hq]
    simp

theorem visibleEntry_filter_byDoc (es : List Entry) (q : DocId → Bool) (i : DocId) :
    visibleEntry (es.filter (fun e => q e.docId)) i
      = if q i = true then visibleEntry es i else none := by
  cases hq : q i with
  | true =>
    rw [if_pos rfl]
    have hef := entriesFor_filter_byDoc es q i
    rw [if_pos hq] at hef
    have hmax : maxTs (es.filter (fun e => q e.docId)) i = maxTs es i := by
      unfold maxTs
      rw [hef]
    unfold visibleEntry
    rw [hmax, List.filter_comm]
    congr 1
    rw [List.filter_eq_self]
    intro x hx
    have hxp : x.docId = i ∧ x.timestamp = maxTs es i := by
      simpa using (List.mem_filter.mp hx).2
    rw [hxp.1, hq]
  | false =>
    rw [if_neg (by simp)]
    unfold visibleEntry
    rw [List.filter_comm]
    have : (es.filter
        (fun e => decide (e.docId = i ∧ e.timestamp = maxTs (es.filter (fun e => q e.docId)) i))).filter
        (fun e => q e.docId) = [] := by
      rw [List.filter_eq_nil_iff]
      intro x hx
      have hxp : x.docId = i ∧
          x.timestamp = maxTs (es.filter (fun e => q e.docId)) i := by
        simpa using (List.mem_filter.mp hx).2
      rw [hxp.1, hq]
      simp
    rw [this]
    rfl

theorem map_filter_comp {α β : Type} [DecidableEq β] (f : α → β) (p : β → Bool)
    (l : List α) : (l.filter (fun a => p (f a))).map f = (l.map f).filter p := by
  induction l with
  | nil => rfl
  | cons a t ih => by_cases h : p (f a) <;> simp [h, ih]

theorem docIds_filter_byDoc (es : List Entry) (q : DocId → Bool) :
    docIds (es.filter (fun e => q e.docId)) = (docIds es).filter (fun i => q i = true) := by
  unfold docIds
  rw [map_filter_comp Entry.docId q es, List.toFinset_filter]

theorem chunkTake_append (maxB : Nat) (l : List Entry) (acc : Nat) :
    (chunkTake maxB l acc).1 ++ (chunkTake maxB l acc).2 = l := by
  induction l generalizing acc with
  | nil => rfl
  | cons e rest ih =>
    unfold chunkTake
    by_cases hc : acc = 0 ∨ acc + entrySize e ≤ maxB
    · simp only [if_pos hc, List.cons_append]
      rw [ih (acc + entrySize e)]
    · simp [if_neg hc]

theorem chunkTake_snd_length (maxB : Nat) (l : List Entry) (acc : Nat) :
    ((chunkTake maxB l acc).2).length ≤ l.length := by
  induction l generalizing acc with
  | nil => simp [chunkTake]
  | cons e rest ih =>
    unfold chunkTake
    by_cases hc : acc = 0 ∨ acc + entrySize e ≤ maxB
    · simp only [if_pos hc]
      exact le_trans (ih (acc + entrySize e)) (by simp)
    · simp [if_neg hc]

theorem chunkTake_stop (maxB : Nat) (l : List Entry) (acc : Nat) (h0 : acc ≠ 0)
    (hgt : maxB < acc) : chunkTake maxB l acc = ([], l) := by
  cases l with
  | nil => rfl
  | cons e rest =>
    unfold chunkTake
    rw [if_neg]
    push_neg
    exact ⟨h0, by omega⟩

theorem iterateChunk_cons (maxB : Nat) (e : Entry) (rest : List Entry) :
    iterateChunk maxB (e :: rest)
      = (e :: (chunkTake maxB rest (entrySize e)).1, (chunkTake maxB rest (entrySize e)).2) := by
  unfold iterateChunk
  simp [chunkTake]

theorem iterateChunk_big (maxB : Nat) (e : Entry) (rest : List Entry)
    (h : maxB < entrySize e) : iterateChunk maxB (e :: rest) = ([e], rest) := by
  rw [iterateChunk_cons, chunkTake_stop maxB rest (entrySize e) (by omega) h]

theorem iterateChunk_cons_snd_length (maxB : Nat) (e : Entry) (rest : List Entry) :
    ((iterateChunk maxB (e :: rest)).2).length ≤ rest.length := by
  rw [iterateChunk_cons]
  exact chunkTake_snd_length maxB rest (entrySize e)

theorem runIterateFuel_flatten (maxB : Nat) :
    ∀ (fuel : Nat) (es : List Entry), es.length ≤ fuel →
      (runIterateFuel maxB fuel es).flatten = es := by
  intro fuel
  induction fuel with
  | zero =>
    intro es h
    have hnil : es = [] := List.eq_nil_of_length_eq_zero (Nat.le_zero.mp h)
    subst hnil
    rfl
  | succ n ih =>
    intro es h
    unfold runIterateFuel
    by_cases hp : (iterateChunk maxB es).2 = []
    · simp only [if_pos hp, List.flatten_cons, List.flatten_nil, List.append_nil]
      have := chunkTake_append maxB es 0
      rw [show chunkTake maxB es 0 = iterateChunk maxB es from rfl] at this
      rw [hp] at this
      simpa using this
    · simp only [if_neg hp, List.flatten_cons]
      have hlen : ((iterateChunk maxB es).2).length ≤ n := by
        cases es with
        | nil => simp [iterateChunk, chunkTake] at hp
        | cons e rest =>
          have := iterateChunk_cons_snd_length maxB e rest
          simp only [List.length_cons] at h
          omega
      rw [ih _ hlen]
      have := chunkTake_append maxB es 0
      exact this

theorem runIterate_flatten (maxB : Nat) (es : List Entry) :
    (runIterate maxB es).flatten = es :=
  runIterateFuel_flatten maxB es.length es le_rfl

theorem runIterateFuel_singletons (maxB : Nat) :
    ∀ (es : List Entry) (fuel : Nat), es.length ≤ fuel → es ≠ [] →
      (∀ e ∈ es, maxB < entrySize e) →
      runIterateFuel maxB fuel es = es.map (fun e => [e]) := by
  intro es
  induction es with
  | nil => intro fuel _ hne _; exact absurd rfl hne
  | cons e rest ih =>
    intro fuel hlen hne hsz
    cases fuel with
    | zero => simp at hlen
    | succ n =>
      unfold runIterateFuel
      have hchunk := iterateChunk_big maxB e rest (hsz e (by simp))
      rw [hchunk]
      by_cases hr : rest = []
      · subst hr
        simp
      · rw [if_neg hr]
        simp only [List.map_cons]
        congr 1
        exact ih n (by simpa using hlen) hr (fun x hx => hsz x (by simp [hx]))

theorem insertEntry_idem (es : List Entry) (e : Entry) :
    insertEntry (insertEntry es e) e = insertEntry es e := by
  unfold insertEntry
  congr 1
  rw [List.filter_cons, if_neg (by simp)]
  exact List.filter_eq_self.mpr (fun x hx => (List.mem_filter.mp hx).2)

theorem insertEntry_key_count (es : List Entry) (e : Entry) :
    ((insertEntry es e).filter
      (fun x => decide (x.docId = e.docId ∧ x.timestamp = e.timestamp))).length = 1 := by
  unfold insertEntry
  rw [List.filter_cons, if_pos (by simp)]
  have hnil : (es.filter (fun x => decide (¬(x.docId = e.docId ∧ x.timestamp = e.timestamp)))).filter
      (fun x => decide (x.docId = e.docId ∧ x.timestamp = e.timestamp)) = [] := by
    rw [List.filter_eq_nil_iff]
    intro x hx
    have hnot := (List.mem_filter.mp hx).2
    simp only [decide_eq_true_eq] at hnot ⊢
    exact hnot
  rw [hnil]
  rfl

/-- C1: for every bucket with well-formed content and every pair of put
operations at distinct timestamps on two documents, applying the two puts
in either wall-clock order yields the same final BucketInfo checksum and
documentCount — the bucket info depends only on the final
newest-timestamp state per document id, not on application order. -/
theorem orderIndependentBucketInfo (s : ProviderState) (b : BucketId) (d₁ d₂ : Doc)
    (t₁ t₂ : Nat) (hwf : keysDistinct (contents s b)) (hts : t₁ ≠ t₂) :
    (getBucketInfo (put (put s b t₁ d₁) b t₂ d₂) b).checksum
        = (getBucketInfo (put (put s b t₂ d₂) b t₁ d₁) b).checksum
    ∧ (getBucketInfo (put (put s b t₁ d₁) b t₂ d₂) b).documentCount
        = (getBucketInfo (put (put s b t₂ d₂) b t₁ d₁) b).documentCount := by
  have hc₁ : contents (put (put s b t₁ d₁) b t₂ d₂) b
      = insertEntry (insertEntry (contents s b) (putEntry d₁ t₁)) (putEntry d₂ t₂) := by
    rw [contents_put, contents_put]
  have hc₂ : contents (put (put s b t₂ d₂) b t₁ d₁) b
      = insertEntry (insertEntry (contents s b) (putEntry d₂ t₂)) (putEntry d₁ t₁) := by
    rw [contents_put, contents_put]
  have hperm := insertEntry_comm_perm (contents s b) (putEntry d₁ t₁) (putEntry d₂ t₂)
      (fun hc => hts hc.2)
  have hwf₂ : keysDistinct (insertEntry (insertEntry (contents s b) (putEntry d₁ t₁))
      (putEntry d₂ t₂)) :=
    insertEntry_keysDistinct _ _ (insertEntry_keysDistinct _ _ hwf)
  have hinfo := bucketInfo_perm hperm hwf₂
  unfold getBucketInfo
  rw [hc₁, hc₂, hinfo]
  exact ⟨rfl, rfl⟩

/-- Witness for C1: two puts at timestamps 2 and 3 into a fresh bucket. -/
theorem orderIndependentBucketInfo_witness :
    (getBucketInfo (put (put initialState ⟨8, 1⟩ 2 ⟨⟨1, 1⟩, 10, 110⟩) ⟨8, 1⟩ 3 ⟨⟨1, 2⟩, 20, 110⟩) ⟨8, 1⟩).checksum
        = (getBucketInfo (put (put initialState ⟨8, 1⟩ 3 ⟨⟨1, 2⟩, 20, 110⟩) ⟨8, 1⟩ 2 ⟨⟨1, 1⟩, 10, 110⟩) ⟨8, 1⟩).checksum
    ∧ (getBucketInfo (put (put initialState ⟨8, 1⟩ 2 ⟨⟨1, 1⟩, 10, 110⟩) ⟨8, 1⟩ 3 ⟨⟨1, 2⟩, 20, 110⟩) ⟨8, 1⟩).documentCount
        = (getBucketInfo (put (put initialState ⟨8, 1⟩ 3 ⟨⟨1, 2⟩, 20, 110⟩) ⟨8, 1⟩ 2 ⟨⟨1, 1⟩, 10, 110⟩) ⟨8, 1⟩).documentCount :=
  orderIndependentBucketInfo initialState ⟨8, 1⟩ ⟨⟨1, 1⟩, 10, 110⟩ ⟨⟨1, 2⟩, 20, 110⟩ 2 3
    (by exact List.Pairwise.nil) (by decide)

/-- C2: get, getBucketInfo and createIterator-plus-iterate on a bucket that
was never created succeed and behave identically to the same calls on a
created-but-empty bucket: get reports timestamp 0 and no document,
getBucketInfo reports checksum 0, entryCount 0 and documentCount 0, and
the first iterate returns zero entries and reports completion. -/
theorem missingBucketTransparency (s : ProviderState) (b : BucketId) (i : DocId)
    (maxB : Nat) (h : s b = none) :
    get s b i = get (createBucket s b) b i
    ∧ get s b i = ⟨0, none, false⟩
    ∧ getBucketInfo s b = getBucketInfo (createBucket s b) b
    ∧ getBucketInfo s b = ⟨0, 0, 0, 0⟩
    ∧ createIteratorSnapshot s b = createIteratorSnapshot (createBucket s b) b
    ∧ iterateChunk maxB (createIteratorSnapshot s b) = ([], []) := by
  have hc : contents s b = [] := by
    unfold contents
    rw [h]
    rfl
  have hcc : contents (createBucket s b) b = [] := by
    rw [contents_createBucket, hc]
  refine ⟨?_, ?_, ?_, ?_, ?_, ?_⟩
  · unfold get
    rw [hc, hcc]
  · unfold get
    rw [hc]
    rfl
  · unfold getBucketInfo
    rw [hc, hcc]
  · unfold getBucketInfo
    rw [hc]
    decide
  · unfold createIteratorSnapshot
    rw [hc, hcc]
  · unfold createIteratorSnapshot
    rw [hc]
    rfl

/-- Witness for C2: a concrete never-created bucket. -/
theorem missingBucketTransparency_witness :
    get initialState ⟨8, 1⟩ ⟨1, 1⟩ = ⟨0, none, false⟩
    ∧ getBucketInfo initialState ⟨8, 1⟩ = ⟨0, 0, 0, 0⟩ :=
  ⟨(missingBucketTransparency initialState ⟨8, 1⟩ ⟨1, 1⟩ 1024 rfl).2.1,
   (missingBucketTransparency initialState ⟨8, 1⟩ ⟨1, 1⟩ 1024 rfl).2.2.2.1⟩

/-- C6: putting the identical document at the identical timestamp twice
leaves the provider state — and therefore documentCount and checksum —
exactly as after the first put, and an all-versions iteration of the
bucket afterwards returns exactly one entry for that (id, timestamp). -/
theorem putDuplicateIdempotent (s : ProviderState) (b : BucketId) (t : Nat) (d : Doc)
    (maxB : Nat) :
    put (put s b t d) b t d = put s b t d
    ∧ getBucketInfo (put (put s b t d) b t d) b = getBucketInfo (put s b t d) b
    ∧ (((runIterate maxB (createIteratorSnapshot (put (put s b t d) b t d) b)).flatten).filter
        (fun e => decide (e.docId = d.id ∧ e.timestamp = t))).length = 1 := by
  have hstate : put (put s b t d) b t d = put s b t d := by
    funext b'
    show (if b' = b then some (insertEntry (contents (put s b t d) b) (putEntry d t))
        else put s b t d b') = put s b t d b'
    by_cases hb : b' = b
    · rw [if_pos hb, contents_put, insertEntry_idem]
      subst hb
      show _ = (if b' = b' then some (insertEntry (contents s b') (putEntry d t)) else s b')
      rw [if_pos rfl]
    · rw [if_neg hb]
  refine ⟨hstate, by rw [hstate], ?_⟩
  rw [hstate]
  rw [show createIteratorSnapshot (put s b t d) b = insertEntry (contents s b) (putEntry d t)
      from contents_put s b t d]
  rw [runIterate_flatten]
  have hcount := insertEntry_key_count (contents s b) (putEntry d t)
  simpa [putEntry] using hcount

/-- C5: repeatedly iterating a bucket each of whose entries exceeds the
maxByteSize quota yields exactly one entry per chunk and as many chunks as
entries (100 chunks for 100 ~110-byte documents at maxByteSize 1): an
entry is never split across chunks, and every chunk is nonempty. -/
theorem iterateChunkBoundary (s : ProviderState) (b : BucketId) (maxB : Nat)
    (hne : createIteratorSnapshot s b ≠ [])
    (hsz : ∀ e ∈ createIteratorSnapshot s b, maxB < entrySize e) :
    runIterate maxB (createIteratorSnapshot s b)
        = (createIteratorSnapshot s b).map (fun e => [e])
    ∧ (runIterate maxB (createIteratorSnapshot s b)).length
        = (createIteratorSnapshot s b).length
    ∧ ∀ c ∈ runIterate maxB (createIteratorSnapshot s b), c.length = 1 := by
  have h : runIterate maxB (createIteratorSnapshot s b)
      = (createIteratorSnapshot s b).map (fun e => [e]) :=
    runIterateFuel_singletons maxB (createIteratorSnapshot s b)
      (createIteratorSnapshot s b).length le_rfl hne hsz
  refine ⟨h, ?_, ?_⟩
  · rw [h, List.length_map]
  · intro c hc
    rw [h] at hc
    obtain ⟨e, _, rfl⟩ := List.mem_map.mp hc
    rfl

/-- Witness for C5: a bucket of 100 documents of 110 bytes iterated with
maxByteSize 1 produces exactly 100 chunks. -/
theorem iterateChunkBoundary_witness :
    (runIterate 1 (createIteratorSnapshot chunkState ⟨8, 1⟩)).length = 100 :=
  ((iterateChunkBoundary chunkState ⟨8, 1⟩ 1 (by decide) (by decide)).2.1).trans (by decide)

theorem bucketInfo_congr_components (L₂ L₁ : List Entry)
    (hids : docIds L₂ = docIds L₁)
    (hvis : ∀ j, visibleEntry L₂ j = visibleEntry L₁ j) :
    bucketChecksum L₂ = bucketChecksum L₁
    ∧ documentCount L₂ = documentCount L₁
    ∧ documentSize L₂ = documentSize L₁ := by
  refine ⟨?_, ?_, ?_⟩
  · unfold bucketChecksum
    rw [hids]
    congr 1
    exact Finset.sum_congr rfl (fun j _ => by unfold visChecksum; rw [hvis j])
  · unfold documentCount
    rw [hids]
    congr 1
    apply Finset.filter_congr
    intro j _
    unfold visIsPut
    rw [hvis j]
  · unfold documentSize
    rw [hids]
    exact Finset.sum_congr rfl (fun j _ => by unfold visSize; rw [hvis j])

/-- C3: after putting document d₁ at timestamp t₁ and then a document d₂
with the same id at an older timestamp t₂ < t₁, the second put is accepted
but get still returns d₁ at t₁ with is_tombstone false, and the bucket's
documentCount, checksum and documentSize are unchanged from their values
after the first put. -/
theorem putOlderDocumentVersion (s : ProviderState) (b : BucketId) (d₁ d₂ : Doc)
    (t₁ t₂ : Nat) (ht : t₂ < t₁) (hid : d₂.id = d₁.id)
    (hold : ∀ e ∈ contents s b, e.docId = d₁.id → e.timestamp < t₂) :
    get (put (put s b t₁ d₁) b t₂ d₂) b d₁.id = ⟨t₁, some d₁, false⟩
    ∧ (getBucketInfo (put (put s b t₁ d₁) b t₂ d₂) b).documentCount
        = (getBucketInfo (put s b t₁ d₁) b).documentCount
    ∧ (getBucketInfo (put (put s b t₁ d₁) b t₂ d₂) b).checksum
        = (getBucketInfo (put s b t₁ d₁) b).checksum
    ∧ (getBucketInfo (put (put s b t₁ d₁) b t₂ d₂) b).documentSize
        = (getBucketInfo (put s b t₁ d₁) b).documentSize := by
  have hc₁ : contents (put s b t₁ d₁) b = putEntry d₁ t₁ :: contents s b := by
    rw [contents_put]
    apply insertEntry_no_conflict
    intro x hx hc
    simp only [putEntry] at hc
    have := hold x hx hc.1
    omega
  have hc₂ : contents (put (put s b t₁ d₁) b t₂ d₂) b
      = putEntry d₂ t₂ :: putEntry d₁ t₁ :: contents s b := by
    rw [contents_put, hc₁]
    apply insertEntry_no_conflict
    intro x hx hcc
    simp only [putEntry] at hcc
    obtain ⟨hca, hcb⟩ := hcc
    rcases List.mem_cons.mp hx with rfl | hx'
    · simp only [putEntry] at hca hcb
      omega
    · have := hold x hx' (hca.trans hid)
      omega
  have hv₂ : visibleEntry (putEntry d₂ t₂ :: putEntry d₁ t₁ :: contents s b) d₁.id
      = some (putEntry d₁ t₁) := by
    apply visibleEntry_eq_of_top
    · simp
    · rfl
    · intro x hx hxid hxne
      rcases List.mem_cons.mp hx with rfl | hx'
      · simp only [putEntry]
        exact ht
      rcases List.mem_cons.mp hx' with rfl | hx''
      · exact absurd rfl hxne
      · have := hold x hx'' hxid
        simp only [putEntry]
        omega
  have hv₁ : visibleEntry (putEntry d₁ t₁ :: contents s b) d₁.id
      = some (putEntry d₁ t₁) := by
    apply visibleEntry_eq_of_top
    · simp
    · rfl
    · intro x hx hxid hxne
      rcases List.mem_cons.mp hx with rfl | hx'
      · exact absurd rfl hxne
      · have := hold x hx' hxid
        simp only [putEntry]
        omega
  have hget : get (put (put s b t₁ d₁) b t₂ d₂) b d₁.id = ⟨t₁, some d₁, false⟩ := by
    unfold get
    rw [hc₂, hv₂]
    simp [putEntry]
  have hvall : ∀ j, visibleEntry (putEntry d₂ t₂ :: putEntry d₁ t₁ :: contents s b) j
      = visibleEntry (putEntry d₁ t₁ :: contents s b) j := by
    intro j
    by_cases hj : j = d₁.id
    · subst hj
      rw [hv₂, hv₁]
    · apply visibleEntry_cons_ne
      simp only [putEntry]
      rw [hid]
      exact fun hcc => hj hcc.symm
  have hids : docIds (putEntry d₂ t₂ :: putEntry d₁ t₁ :: contents s b)
      = docIds (putEntry d₁ t₁ :: contents s b) := by
    unfold docIds
    simp only [List.map_cons, List.toFinset_cons]
    rw [show (putEntry d₂ t₂).docId = (putEntry d₁ t₁).docId from by simp [putEntry, hid]]
    rw [Finset.insert_idem]
  have hcomp := bucketInfo_congr_components _ _ hids hvall
  refine ⟨hget, ?_, ?_, ?_⟩
  · show documentCount (contents (put (put s b t₁ d₁) b t₂ d₂) b)
        = documentCount (contents (put s b t₁ d₁) b)
    rw [hc₂, hc₁]
    exact hcomp.2.1
  · show bucketChecksum (contents (put (put s b t₁ d₁) b t₂ d₂) b)
        = bucketChecksum (contents (put s b t₁ d₁) b)
    rw [hc₂, hc₁]
    exact hcomp.1
  · show documentSize (contents (put (put s b t₁ d₁) b t₂ d₂) b)
        = documentSize (contents (put s b t₁ d₁) b)
    rw [hc₂, hc₁]
    exact hcomp.2.2

/-- Witness for C3: a put at timestamp 5 followed by a same-id put at
timestamp 4 into a fresh bucket; get still returns the first document. -/
theorem putOlderDocumentVersion_witness :
    get (put (put initialState ⟨8, 1⟩ 5 ⟨⟨1, 1⟩, 10, 110⟩) ⟨8, 1⟩ 4 ⟨⟨1, 1⟩, 20, 111⟩) ⟨8, 1⟩ ⟨1, 1⟩
      = ⟨5, some ⟨⟨1, 1⟩, 10, 110⟩, false⟩
    ∧ (getBucketInfo (put (put initialState ⟨8, 1⟩ 5 ⟨⟨1, 1⟩, 10, 110⟩) ⟨8, 1⟩ 4 ⟨⟨1, 1⟩, 20, 111⟩) ⟨8, 1⟩).checksum
        = (getBucketInfo (put initialState ⟨8, 1⟩ 5 ⟨⟨1, 1⟩, 10, 110⟩) ⟨8, 1⟩).checksum :=
  ⟨(putOlderDocumentVersion initialState ⟨8, 1⟩ ⟨⟨1, 1⟩, 10, 110⟩ ⟨⟨1, 1⟩, 20, 111⟩ 5 4
      (by decide) (by decide) (by decide)).1,
   (putOlderDocumentVersion initialState ⟨8, 1⟩ ⟨⟨1, 1⟩, 10, 110⟩ ⟨⟨1, 1⟩, 20, 111⟩ 5 4
      (by decide) (by decide) (by decide)).2.2.1⟩

theorem visibleEntry_filter_split (es : List Entry) (tb : BucketId) (i : DocId) :
    visibleEntry (es.filter (fun e => splitTo1 tb e)) i
      = if locationMatches tb i.location = true then visibleEntry es i else none :=
  visibleEntry_filter_byDoc es (fun j => locationMatches tb j.location) i

theorem visibleEntry_filter_splitNeg (es : List Entry) (tb : BucketId) (i : DocId) :
    visibleEntry (es.filter (fun e => !splitTo1 tb e)) i
      = if (!locationMatches tb i.location) = true then visibleEntry es i else none :=
  visibleEntry_filter_byDoc es (fun j => !locationMatches tb j.location) i

theorem docIds_filter_split (es : List Entry) (tb : BucketId) :
    docIds (es.filter (fun e => splitTo1 tb e))
      = (docIds es).filter (fun i => locationMatches tb i.location = true) :=
  docIds_filter_byDoc es (fun j => locationMatches tb j.location)

theorem docIds_filter_splitNeg (es : List Entry) (tb : BucketId) :
    docIds (es.filter (fun e => !splitTo1 tb e))
      = (docIds es).filter (fun i => (!locationMatches tb i.location) = true) :=
  docIds_filter_byDoc es (fun j => !locationMatches tb j.location)

theorem visIsPut_filter_split (es : List Entry) (tb : BucketId) (i : DocId) :
    visIsPut (es.filter (fun e => splitTo1 tb e)) i
      = if locationMatches tb i.location = true then visIsPut es i else false := by
  unfold visIsPut
  rw [visibleEntry_filter_split]
  by_cases hq : locationMatches tb i.location = true
  · rw [if_pos hq, if_pos hq]
  · rw [if_neg hq, if_neg hq]

theorem visIsPut_filter_splitNeg (es : List Entry) (tb : BucketId) (i : DocId) :
    visIsPut (es.filter (fun e => !splitTo1 tb e)) i
      = if (!locationMatches tb i.location) = true then visIsPut es i else false := by
  unfold visIsPut
  rw [visibleEntry_filter_splitNeg]
  by_cases hq : (!locationMatches tb i.location) = true
  · rw [if_pos hq, if_pos hq]
  · rw [if_neg hq, if_neg hq]

theorem get_hasDocument (s : ProviderState) (b : BucketId) (i : DocId) :
    (get s b i).hasDocument = visIsPut (contents s b) i := by
  unfold get GetResult.hasDocument visIsPut
  cases hv : visibleEntry (contents s b) i with
  | none => rfl
  | some e =>
    cases e with
    | mk j t op =>
      cases op with
      | put c sz => rfl
      | remove => rfl

theorem documentCount_filter_split (es : List Entry) (tb : BucketId) :
    documentCount (es.filter (fun e => splitTo1 tb e))
      = (((docIds es).filter (fun i => visIsPut es i = true)).filter
          (fun i => locationMatches tb i.location = true)).card := by
  unfold documentCount
  rw [docIds_filter_split]
  have hcongr : Finset.filter (fun i => visIsPut (es.filter (fun e => splitTo1 tb e)) i = true)
        ((docIds es).filter (fun i => locationMatches tb i.location = true))
      = Finset.filter (fun i => visIsPut es i = true)
        ((docIds es).filter (fun i => locationMatches tb i.location = true)) :=
    Finset.filter_congr (fun i hi => by
      rw [visIsPut_filter_split, if_pos (Finset.mem_filter.mp hi).2])
  rw [hcongr, Finset.filter_comm]

theorem documentCount_filter_splitNeg (es : List Entry) (tb : BucketId) :
    documentCount (es.filter (fun e => !splitTo1 tb e))
      = (((docIds es).filter (fun i => visIsPut es i = true)).filter
          (fun i => ¬locationMatches tb i.location = true)).card := by
  unfold documentCount
  rw [docIds_filter_splitNeg]
  have hcongr : Finset.filter (fun i => visIsPut (es.filter (fun e => !splitTo1 tb e)) i = true)
        ((docIds es).filter (fun i => (!locationMatches tb i.location) = true))
      = Finset.filter (fun i => visIsPut es i = true)
        ((docIds es).filter (fun i => (!locationMatches tb i.location) = true)) :=
    Finset.filter_congr (fun i hi => by
      rw [visIsPut_filter_splitNeg, if_pos (Finset.mem_filter.mp hi).2])
  rw [hcongr]
  have hneg : ((docIds es).filter (fun i => (!locationMatches tb i.location) = true))
      = ((docIds es).filter (fun i => ¬locationMatches tb i.location = true)) :=
    Finset.filter_congr (fun i _ => by simp)
  rw [hneg, Finset.filter_comm]

/-- C4: splitting a source bucket into two fresh targets conserves the
document count (the targets' documentCounts sum to the source's), every
visible document is retrievable by get from exactly the target whose
bit-pattern matches the document's location, and no document remains
retrievable from the source. -/
theorem splitConservation (s : ProviderState) (src t1 t2 : BucketId)
    (h12 : t1 ≠ t2) (h1s : t1 ≠ src) (h2s : t2 ≠ src)
    (hfresh1 : contents s t1 = []) (hfresh2 : contents s t2 = []) :
    (getBucketInfo (split s src t1 t2) t1).documentCount
        + (getBucketInfo (split s src t1 t2) t2).documentCount
        = (getBucketInfo s src).documentCount
    ∧ (∀ i, visIsPut (contents s src) i = true →
        (get (split s src t1 t2) t1 i).hasDocument = locationMatches t1 i.location
        ∧ (get (split s src t1 t2) t2 i).hasDocument = !locationMatches t1 i.location)
    ∧ ∀ i, (get (split s src t1 t2) src i).hasDocument = false := by
  have hct1 : contents (split s src t1 t2) t1
      = (contents s src).filter (fun e => splitTo1 t1 e) := by
    unfold split
    rw [contents_updateBucket_ne _ _ _ _ h1s, contents_updateBucket_ne _ _ _ _ h12,
      contents_updateBucket_self]
    rw [show (some (contents s t1 ++ (contents s src).filter (fun e => splitTo1 t1 e))).getD []
        = contents s t1 ++ (contents s src).filter (fun e => splitTo1 t1 e) from rfl]
    rw [hfresh1, List.nil_append]
  have hct2 : contents (split s src t1 t2) t2
      = (contents s src).filter (fun e => !splitTo1 t1 e) := by
    unfold split
    rw [contents_updateBucket_ne _ _ _ _ h2s, contents_updateBucket_self]
    rw [show (some (contents s t2 ++ (contents s src).filter (fun e => !splitTo1 t1 e))).getD []
        = contents s t2 ++ (contents s src).filter (fun e => !splitTo1 t1 e) from rfl]
    rw [hfresh2, List.nil_append]
  have hcsrc : contents (split s src t1 t2) src = [] := by
    unfold split
    rw [contents_updateBucket_self]
    rfl
  refine ⟨?_, ?_, ?_⟩
  · show documentCount (contents (split s src t1 t2) t1)
        + documentCount (contents (split s src t1 t2) t2)
        = documentCount (contents s src)
    rw [hct1, hct2, documentCount_filter_split, documentCount_filter_splitNeg]
    unfold documentCount
    exact Finset.filter_card_add_filter_neg_card_eq_card _
  · intro i hp
    constructor
    · rw [get_hasDocument, hct1, visIsPut_filter_split]
      cases hq : locationMatches t1 i.location with
      | true => simp [hp]
      | false => simp
    · rw [get_hasDocument, hct2, visIsPut_filter_splitNeg]
      cases hq : locationMatches t1 i.location with
      | true => simp
      | false => simp [hp]
  · intro i
    rw [get_hasDocument, hcsrc]
    rfl

/-- Witness for C4: the conformance suite's split scenario — 20 documents
at locations 0x02 and 0x06 in bucket (2, 0x02) split into (3, 0x02) and
(3, 0x06); the target documentCounts sum to 20. -/
theorem splitConservation_witness :
    (getBucketInfo (split splitState ⟨2, 2⟩ ⟨3, 2⟩ ⟨3, 6⟩) ⟨3, 2⟩).documentCount
      + (getBucketInfo (split splitState ⟨2, 2⟩ ⟨3, 2⟩ ⟨3, 6⟩) ⟨3, 6⟩).documentCount = 20 :=
  ((splitConservation splitState ⟨2, 2⟩ ⟨3, 2⟩ ⟨3, 6⟩ (by decide) (by decide) (by decide)
    (by decide) (by decide)).1).trans (by decide)

/-- C7: in the lid-allocator scenario — valid lids 1..6 with the free list
constructed, after unregister_lids on 1, 3, 5, holding them and trimming
the hold lists — five successive getFreeLid calls return exactly
1, 3, 5, 7, 8: freed lids are reused in ascending numeric order before any
new lid is minted past the current limit. -/
theorem lidFreeListReuseOrder : (allocLids lidScenarioState 5).1 = [1, 3, 5, 7, 8] := by
  decide

/-- C8 counterexample: the spec lets updateActiveLids toggle the active
flag independent of validity, so activating a never-registered lid makes
the active set escape the valid set — the subset invariant does not hold
after arbitrary operation sequences. -/
theorem lidActiveSubsetCounterexample :
    ¬activeSubsetValid (applyLidOps LidAllocator.init [LidOp.setActive 5 true]) := by
  decide

/-- C8 (amended): for every operation sequence in which a lid is only
activated while it is valid, the set of active lids stays a subset of the
set of valid lids; and unregistering lids always clears their active bits
as a side effect, even when updateActiveLids was never called to clear
them. -/
theorem lidActiveSubsetValid (a : LidAllocator) (ops : List LidOp)
    (h0 : activeSubsetValid a) (hg : goodLidOps a ops = true) :
    activeSubsetValid (applyLidOps a ops)
    ∧ ∀ lids l, l ∈ lids →
        l ∉ (unregister_lids (applyLidOps a ops) lids).activeLids := by
  have hmain : ∀ (ops' : List LidOp) (a' : LidAllocator), activeSubsetValid a' →
      goodLidOps a' ops' = true → activeSubsetValid (applyLidOps a' ops') := by
    intro ops'
    induction ops' with
    | nil => intro a' h _; exact h
    | cons op rest ih =>
      intro a' h hgood
      have hg' : goodLidOps (applyLidOp a' op) rest = true := by
        unfold goodLidOps at hgood
        simp only [Bool.and_eq_true] at hgood
        exact hgood.2
      have hstep : activeSubsetValid (applyLidOp a' op) := by
        cases op with
        | register lid =>
          intro l hl
          show l ∈ (registerLid a' lid).validLids
          unfold registerLid
          exact List.mem_insert_of_mem (h l hl)
        | setActive lid act =>
          cases act with
          | true =>
            have hvalid : lid ∈ a'.validLids := by
              unfold goodLidOps at hgood
              simp only [Bool.and_eq_true] at hgood
              simpa using hgood.1
            intro l hl
            show l ∈ (updateActiveLids a' lid true).validLids
            have hl' : l ∈ a'.activeLids.insert lid := by
              simpa [applyLidOp, updateActiveLids] using hl
            unfold updateActiveLids
            rcases List.mem_insert_iff.mp hl' with rfl | hl''
            · simpa using hvalid
            · simpa using h l hl''
          | false =>
            intro l hl
            have hl' : l ∈ a'.activeLids.erase lid := by
              simpa [applyLidOp, updateActiveLids] using hl
            show l ∈ (updateActiveLids a' lid false).validLids
            unfold updateActiveLids
            simpa using h l (List.mem_of_mem_erase hl')
        | unregister lids =>
          intro l hl
          have hl' : l ∈ a'.activeLids.filter (fun x => decide (x ∉ lids)) := by
            simpa [applyLidOp, unregister_lids] using hl
          have hm := List.mem_filter.mp hl'
          show l ∈ (unregister_lids a' lids).validLids
          have hv : l ∈ a'.validLids.filter (fun x => decide (x ∉ lids)) :=
            List.mem_filter.mpr ⟨h l hm.1, hm.2⟩
          simpa [unregister_lids] using hv
      exact ih (applyLidOp a' op) hstep hg'
  refine ⟨hmain ops a h0 hg, ?_⟩
  intro lids l hl hmem
  have hmf : l ∈ (applyLidOps a ops).activeLids.filter (fun x => decide (x ∉ lids)) := by
    simpa [unregister_lids] using hmem
  have := (List.mem_filter.mp hmf).2
  simp only [decide_eq_true_eq] at this
  exact this hl

/-- Witness for C8 (amended): register lid 1, activate it, unregister it. -/
theorem lidActiveSubsetValid_witness :
    activeSubsetValid (applyLidOps LidAllocator.init
      [LidOp.register 1, LidOp.setActive 1 true, LidOp.unregister [1]])
    ∧ ∀ lids l, l ∈ lids →
        l ∉ (unregister_lids (applyLidOps LidAllocator.init
          [LidOp.register 1, LidOp.setActive 1 true, LidOp.unregister [1]]) lids).activeLids :=
  lidActiveSubsetValid LidAllocator.init
    [LidOp.register 1, LidOp.setActive 1 true, LidOp.unregister [1]]
    (by decide) (by decide)

/-- C9: a wrapped provider result carrying RESOURCE_EXHAUSTED notifies
every registered listener exactly once, in registration order, with the
result's error message, through on_resource_exhaustion_error, and
produces no fatal-error notification; fatal-error notifications occur
only for FATAL_ERROR results, and any other error code notifies nobody. -/
theorem resourceExhaustionFanOut {α : Type} (listeners : List Nat) (r : SpiResult α) :
    (r.errorCode = ErrorType.RESOURCE_EXHAUSTED →
      (checkResult listeners r).1
          = listeners.map
              (fun l => (l, ListenerEvent.on_resource_exhaustion_error r.errorMessage))
      ∧ ∀ p ∈ (checkResult listeners r).1, isFatalEvent p.2 = false)
    ∧ ((∃ p ∈ (checkResult listeners r).1, isFatalEvent p.2 = true) →
        r.errorCode = ErrorType.FATAL_ERROR)
    ∧ (r.errorCode ≠ ErrorType.RESOURCE_EXHAUSTED → r.errorCode ≠ ErrorType.FATAL_ERROR →
        (checkResult listeners r).1 = []) := by
  obtain ⟨ec, msg, payload⟩ := r
  cases ec <;>
    simp [checkResult, handle, trigger_shutdown_listeners,
      trigger_resource_exhaustion_listeners, isFatalEvent]

/-- Witness for C9: two listeners, a RESOURCE_EXHAUSTED result. -/
theorem resourceExhaustionFanOut_witness :
    (checkResult [3, 7] (⟨ErrorType.RESOURCE_EXHAUSTED, "disk full", (0 : Nat)⟩ : SpiResult Nat)).1
      = [(3, ListenerEvent.on_resource_exhaustion_error "disk full"),
         (7, ListenerEvent.on_resource_exhaustion_error "disk full")]
    ∧ ∀ p ∈ (checkResult [3, 7]
          (⟨ErrorType.RESOURCE_EXHAUSTED, "disk full", (0 : Nat)⟩ : SpiResult Nat)).1,
        isFatalEvent p.2 = false :=
  ⟨(((resourceExhaustionFanOut [3, 7] _).1 rfl).1).trans rfl,
   ((resourceExhaustionFanOut [3, 7] _).1 rfl).2⟩

/-- C10: the error wrapper forwards each wrapped synchronous provider
call's result exactly as the inner provider produced it — error code,
error message and payload unchanged — for every error code including
FATAL_ERROR and RESOURCE_EXHAUSTED; listener notification is only a side
effect and never alters the returned result. -/
theorem providerErrorWrapperPassthrough {α β : Type} (listeners : List Nat)
    (impl : α → SpiResult β) (args : α) :
    (wrappedCall listeners impl args).2 = impl args
    ∧ ((wrappedCall listeners impl args).2).errorCode = (impl args).errorCode
    ∧ ((wrappedCall listeners impl args).2).errorMessage = (impl args).errorMessage
    ∧ ((wrappedCall listeners impl args).2).payload = (impl args).payload :=
  ⟨rfl, rfl, rfl, rfl⟩

end Vespa
